import Mathlib

/-!
Shallow embedding of the document-ingestion pipeline (NestJS/Kafka/Mongo
service) and proofs about its coordination behaviour.

Embedded components, each translated from the corresponding TypeScript
source file:
* the Mongoose models `Submission` and `Attachment` and the subset of
  MongoDB operations the services use (`create`, `updateOne` on a filter,
  `findOne`), modelled over an explicit `Store`;
* `IngestionService.ingestion`;
* `EventPipelineService.update` (the status reconciler);
* `OcrService.processOcr` / `extractTextFromImage` / `extractTextFromPdf`,
  with external engine calls modelled as abstract call outcomes that
  either return after some wall-clock delay, reject, or hang forever;
* `ClassificationService.classify` / `processClassification`, with
  `JSON.parse` modelled as an abstract parse function (it is a platform
  primitive, not repository code) and the code-fence stripping translated
  concretely.
-/

namespace DocPipeline

/-! ## String helpers

Executable replacements for the JavaScript string operations the source
uses: `String.prototype.includes`, `trim`, `startsWith`, and the two
regex replaces in `ClassificationService.classify`. -/

/-- Test whether `l` starts with the pattern `pat` (character-list core
of JS `startsWith`). -/
def charsStartWith : List Char → List Char → Bool
  | [], _ => true
  | _ :: _, [] => false
  | p :: ps, c :: cs => p == c && charsStartWith ps cs

/-- Test whether `l` contains `pat` as a contiguous run (core of JS
`String.prototype.includes`). -/
def charsContain : List Char → List Char → Bool
  | [], pat => pat.isEmpty
  | c :: cs, pat => charsStartWith pat (c :: cs) || charsContain cs pat

/-- Model of JS `s.includes(pat)`. -/
def strIncludes (s pat : String) : Bool :=
  charsContain s.toList pat.toList

/-- Model of JS `s.startsWith(pat)`. -/
def strStartsWith (s pat : String) : Bool :=
  charsStartWith pat.toList s.toList

/-- Model of JS `s.trim()` (ASCII whitespace suffices for the strings
involved). -/
def strTrim (s : String) : String :=
  ⟨((s.toList.dropWhile Char.isWhitespace).reverse.dropWhile
      Char.isWhitespace).reverse⟩

/-! ## Data model

`AttachmentEntry` is one element of an attachment list, combining the
wire-format fields of `types.ts` (`filename`, `content_type`, `url`,
optional `text` / `classification` / `confidence`) with the per-entry
schema of `models/attachment.ts` (same fields, the last three defaulting
to `null`).  `filename` is optional in the TS interface but `required`
in the Mongoose schema; it is modelled as optional, matching the wire
type, with absence written `none`.  Confidence values are modelled as
rationals: the pipeline never computes with them, it only passes them
through, so the numeric representation is irrelevant to every claim. -/

structure AttachmentEntry where
  filename : Option String
  content_type : String
  url : String
  text : Option String := none
  classification : Option String := none
  confidence : Option ℚ := none
deriving DecidableEq, Repr

/-- Shape of the `metadata` object shared by `IngestionObject` / `OcrObject` /
`ClassificationObject` in `types.ts` (the three interfaces are
identical).  `timestamp` is an abstract instant. -/
structure Meta where
  subject : String
  sender : String
  body : String
  timestamp : Nat
  id : String
  submission_id : String
  attachments : List AttachmentEntry
deriving DecidableEq, Repr

/-- A stage payload: `{ metadata: ... }`. -/
structure Payload where
  metadata : Meta
deriving DecidableEq, Repr

/-- The common event envelope (`Event` in `types.ts`). -/
structure Event where
  id : String
  message : String
  data : Payload
deriving DecidableEq, Repr

/-- One document of the `Submission` collection
(`models/submission.ts`): `sender`, `body`, `timestamp`, `id`, a
nullable ObjectId reference `attachments` (modelled as `Option Nat`),
and `status`.  `oid` is the Mongo `_id`. -/
structure SubmissionDoc where
  oid : Nat
  sender : String
  body : String
  timestamp : Nat
  id : String
  attachments : Option Nat
  status : String
deriving DecidableEq, Repr

/-- One document of the `Attachment` collection
(`models/attachment.ts`): a single `attachments` array field. -/
structure AttachmentDoc where
  oid : Nat
  attachments : List AttachmentEntry
deriving DecidableEq, Repr

/-- The document store: both collections plus a fresh-ObjectId counter. -/
structure Store where
  subs : List SubmissionDoc
  atts : List AttachmentDoc
  nextOid : Nat
deriving DecidableEq, Repr

/-- The empty store. -/
def Store.empty : Store := ⟨[], [], 0⟩

/-! ### MongoDB operations used by the services

`updateOne` updates at most one document: the first one matching the
filter; with no match (and no `upsert` option, which none of the calls
pass) it is a no-op.  `findOne` returns the first match.  `create`
inserts unconditionally.  Neither schema declares a unique index on any
field, so `create` never rejects a duplicate. -/

/-- Replace the first element satisfying `p` by its image under `f`;
leave the list unchanged when nothing matches. -/
def replaceFirst (p : α → Bool) (f : α → α) : List α → List α
  | [] => []
  | a :: l => if p a then f a :: l else a :: replaceFirst p f l

/-- Model of `submission.findOne({ id })`. -/
def submissionFindOne (st : Store) (sid : String) : Option SubmissionDoc :=
  st.subs.find? (fun d => d.id == sid)

/-- Model of `submission.updateOne({ id }, { $set: ... })`, the `$set` given as a
document transformer `f` (all call sites only `$set` fields other than
`id` and `_id`). -/
def submissionUpdateOne (st : Store) (sid : String)
    (f : SubmissionDoc → SubmissionDoc) : Store :=
  { st with subs := replaceFirst (fun d => d.id == sid) f st.subs }

/-- Model of `attachment.updateOne({ _id }, { $set: { attachments } })`. -/
def attachmentUpdateOne (st : Store) (aoid : Nat)
    (entries : List AttachmentEntry) : Store :=
  { st with
    atts := replaceFirst (fun d => d.oid == aoid)
      (fun d => { d with attachments := entries }) st.atts }

/-- Model of `submission.create(...)`: unconditionally inserts a new document
with a fresh `_id` and returns it together with the updated store. -/
def submissionCreate (st : Store) (sender body : String) (ts : Nat)
    (sid status : String) : SubmissionDoc × Store :=
  let d : SubmissionDoc :=
    { oid := st.nextOid, sender := sender, body := body, timestamp := ts
      id := sid, attachments := none, status := status }
  (d, { st with subs := st.subs ++ [d], nextOid := st.nextOid + 1 })

/-- Model of `attachment.create({ attachments })`. -/
def attachmentCreate (st : Store) (entries : List AttachmentEntry) :
    AttachmentDoc × Store :=
  let d : AttachmentDoc := { oid := st.nextOid, attachments := entries }
  (d, { st with atts := st.atts ++ [d], nextOid := st.nextOid + 1 })

/-! ## Emitted side effects

Each service, besides writing the store, writes a cache key and
publishes messages to Kafka topics.  An emission list records these in
program order. -/

/-- One observable side effect outside the document store. -/
inductive Emission where
  /-- A `redis.set(key, JSON.stringify(event))` call, with optional expiry. -/
  | cacheSet (key : String) (value : Event) (ttl : Option Nat)
  /-- A `kafkaService.publishMessage(topic, event)` call with an envelope. -/
  | publishEvent (topic : String) (e : Event)
  /-- A `kafkaService.publishMessage(topic, payload)` call with a raw payload. -/
  | publishPayload (topic : String) (p : Payload)
deriving DecidableEq, Repr

/-- The envelope published in an emission to the given topic, if any. -/
def Emission.eventTo (topic : String) : Emission → Option Event
  | .publishEvent t e => if t == topic then some e else none
  | _ => none

/-- All envelopes a run published to a topic. -/
def eventsTo (topic : String) (l : List Emission) : List Event :=
  l.filterMap (Emission.eventTo topic)

/-- The raw payload published in an emission to the given topic, if any. -/
def Emission.payloadTo (topic : String) : Emission → Option Payload
  | .publishPayload t p => if t == topic then some p else none
  | _ => none

/-- All raw payloads a run published to a topic. -/
def payloadsTo (topic : String) (l : List Emission) : List Payload :=
  l.filterMap (Emission.payloadTo topic)

/-! ## IngestionService (`ingestion.service.ts`, src/unnamed/part_003)

```ts
const sub = await submission.create({ subject, sender, body, id,
  status: "ingestion in progress" });
if (!sub) throw ...;
if (message.metadata.attachments?.length) {
  const attch = await attachment.create({ attachments });
  await submission.updateOne({ id: sub.id },
    { $set: { attachments: attch._id, status: "ingestion done" } });
}
const payload = { metadata: { ..., timestamp: new Date(),
  submission_id: sub.id,
  attachments: attachments.map(a => ({ filename: a.filename ?? '',
    content_type, url })) } };
const event = { id, message: "ingestion_completed", data: payload };
await redis.set(`redis:status:${event.id}`, JSON.stringify(event));
await kafkaService.publishMessage('event.pipeline', event);
await kafkaService.publishMessage('ocr.init', payload);
```

Notes.  The schema has no `subject` path, so `subject` is dropped by
`create` (strict mode).  The schema defines its own `id` path, so
`sub.id` is the inbound `id`, not the hex `_id`.  The `attachments`
array stored by `attachment.create` gets the schema defaults
(`text`/`classification`/`confidence` null) — the inbound entries carry
none of those fields.  `now` stands for `new Date()`. -/

/-- The downstream payload's attachment entries: fresh objects holding
only `filename ?? ''`, `content_type` and `url`. -/
def stripEntry (a : AttachmentEntry) : AttachmentEntry :=
  { filename := some (a.filename.getD ""), content_type := a.content_type
    url := a.url }

/-- Translation of `IngestionService.ingestion`.  Returns the updated store and the
emissions, in program order. -/
def ingestion (now : Nat) (m : Meta) (st : Store) : Store × List Emission :=
  let (sub, st1) :=
    submissionCreate st m.sender m.body m.timestamp m.id
      "ingestion in progress"
  let st2 :=
    if m.attachments.length != 0 then
      let (attch, st1') := attachmentCreate st1 m.attachments
      submissionUpdateOne st1' sub.id
        (fun d => { d with attachments := some attch.oid
                           status := "ingestion done" })
    else st1
  let payload : Payload :=
    { metadata :=
      { subject := m.subject, sender := m.sender, body := m.body
        timestamp := now, id := m.id, submission_id := sub.id
        attachments := m.attachments.map stripEntry } }
  let event : Event := { id := m.id, message := "ingestion_completed"
                         data := payload }
  (st2,
   [ .cacheSet ("redis:status:" ++ event.id) event none
   , .publishEvent "event.pipeline" event
   , .publishPayload "ocr.init" payload ])

/-! ## EventPipelineService (`event-pipeline.service.ts`,
src/unnamed/part_005)

```ts
await submission.updateOne({ id: event.data.metadata.submission_id },
  { $set: { status: event.message } });
const subDoc = await submission.findOne({ id: ... });
if (!subDoc || !subDoc.attachments) return;
await attachment.updateOne({ _id: subDoc.attachments },
  { $set: { attachments: event.data.metadata.attachments } });
```
-/

/-- Translation of `EventPipelineService.update`.  No code path throws: `updateOne`
with no match is a no-op, and a missing submission or null attachments
reference returns early. -/
def pipelineUpdate (e : Event) (st : Store) : Store :=
  let st1 := submissionUpdateOne st e.data.metadata.submission_id
    (fun d => { d with status := e.message })
  match submissionFindOne st1 e.data.metadata.submission_id with
  | none => st1
  | some subDoc =>
    match subDoc.attachments with
    | none => st1
    | some aoid => attachmentUpdateOne st1 aoid e.data.metadata.attachments

/-- The attachment list stored for a submission id, when the first
matching submission document carries a non-null attachments reference
resolving to an attachment document. -/
def linkedEntries (st : Store) (sid : String) :
    Option (List AttachmentEntry) :=
  (submissionFindOne st sid).bind fun d =>
    d.attachments.bind fun aoid =>
      (st.atts.find? (fun ad => ad.oid == aoid)).map
        fun ad => ad.attachments

/-! ## OcrService (`ocr/ocr.service.ts`)

An external call (HTTP fetch plus extraction engine) is modelled by its
outcome: it returns a text after `t` milliseconds, rejects after `t`
milliseconds, or never settles.  The environment maps each attachment's
`url` to the outcome of its extraction call. -/

/-- Outcome of one external extraction call (`axios.get` + engine). -/
inductive CallOutcome where
  | returns (t : Nat) (text : String)
  | throws (t : Nat)
  | hangs
deriving DecidableEq, Repr

/-- Semantics of `Promise.race([call, timeoutAfter(budget)])`: the call
wins only when it fulfills strictly before the timer fires; a rejection
produces an error either way (its own, or the timeout's), and a hung
call is settled by the timer. -/
def raceTimeout (budget : Nat) : CallOutcome → Except Unit String
  | .returns t v => if t < budget then .ok v else .error ()
  | .throws _ => .error ()
  | .hangs => .error ()

/-- Semantics of a plain `await` of the call, with no race: a hung call
never settles, so the awaiting computation never completes (`none`). -/
def awaitPlain : CallOutcome → Option (Except Unit String)
  | .returns _ v => some (.ok v)
  | .throws _ => some (.error ())
  | .hangs => none

/-- The fixed per-call budget in `extractTextFromImage`:
`const submissionTimeout = 60_000`. -/
def submissionTimeout : Nat := 60000

/-- Translation of `OcrService.extractTextFromImage(url)`: the
underlying call raced against a 60-second timer, hence always settles. -/
def extractTextFromImage (c : CallOutcome) : Except Unit String :=
  raceTimeout submissionTimeout c

/-- Translation of `OcrService.extractTextFromPdf(url)`: a plain await
of the underlying call, with no timer, hence it never settles when the
call hangs. -/
def extractTextFromPdf (c : CallOutcome) : Option (Except Unit String) :=
  awaitPlain c

/-- Per-attachment body of the `Promise.all` in `processOcr`, tracking
the mutations to the shared `att` object (the one the published payload
aliases).  Yields `none` when the attachment's processing never settles
(a hung PDF call, which has no timer).

```ts
try {
  let text = '';
  if (att.content_type.includes('image')) {
    text = await this.extractTextFromImage(att.url); att.text = text;
  } else if (att.content_type.includes('pdf')) {
    text = await this.extractTextFromPdf(att.url); att.text = text;
  } else { att.text = ""; return null; }
  return { ...att, text };
} catch (err) { return { ...att, text: '' }; }
```

On a throwing or timed-out call, control jumps to `catch` before
`att.text = text` runs: the shared object keeps its previous `text`
(absent, for the payloads ingestion builds). -/
def ocrAttachment (env : String → CallOutcome) (att : AttachmentEntry) :
    Option AttachmentEntry :=
  if strIncludes att.content_type "image" then
    match extractTextFromImage (env att.url) with
    | .ok text => some { att with text := some text }
    | .error _ => some att
  else if strIncludes att.content_type "pdf" then
    match extractTextFromPdf (env att.url) with
    | some (.ok text) => some { att with text := some text }
    | some (.error _) => some att
    | none => none
  else
    some { att with text := some "" }

/-- The value the per-attachment callback RETURNS into the `results`
array (distinct from the mutation of the shared object): `null` for
unsupported types, `{ ...att, text }` on success, `{ ...att, text: '' }`
on failure.  `results` only feeds `parsedData`, which the published
messages do not use. -/
def ocrResultEntry (env : String → CallOutcome) (att : AttachmentEntry) :
    Option (Option AttachmentEntry) :=
  if strIncludes att.content_type "image" then
    match extractTextFromImage (env att.url) with
    | .ok text => some (some { att with text := some text })
    | .error _ => some (some { att with text := some "" })
  else if strIncludes att.content_type "pdf" then
    match extractTextFromPdf (env att.url) with
    | some (.ok text) => some (some { att with text := some text })
    | some (.error _) => some (some { att with text := some "" })
    | none => none
  else
    some none

/-- Fan-in of the `Promise.all`: every attachment's processing must
settle, and the shared attachment objects end up mutated in order. -/
def ocrAnnotateAll (env : String → CallOutcome) :
    List AttachmentEntry → Option (List AttachmentEntry)
  | [] => some []
  | a :: l =>
    match ocrAttachment env a, ocrAnnotateAll env l with
    | some a', some l' => some (a' :: l')
    | _, _ => none

/-- The `parsedData` array: the non-null values returned into
`results`.  Computed by the source and then discarded (the payload that
used it is commented out). -/
def ocrParsedData (env : String → CallOutcome) :
    List AttachmentEntry → Option (List AttachmentEntry)
  | [] => some []
  | a :: l =>
    match ocrResultEntry env a, ocrParsedData env l with
    | some (some a'), some l' => some (a' :: l')
    | some none, some l' => some l'
    | _, _ => none

/-- Translation of `OcrService.processOcr`.  Returns `none` when the
stage never completes (some attachment's processing never settles).
Otherwise the published data is `message` itself — the input object
whose attachment entries were mutated in place:

```ts
const event = { id: message.metadata.id, message: 'ocr_completed',
                data: message };
await redis.set(`ocr:status:${event.id}`, JSON.stringify(event),
                'EX', 3600);
await kafkaService.publishMessage('event.pipeline', event);
await kafkaService.publishMessage('classification.init', message);
```
-/
def processOcr (env : String → CallOutcome) (m : Meta) :
    Option (List Emission) :=
  match ocrAnnotateAll env m.attachments with
  | none => none
  | some annotated =>
    let message : Meta := { m with attachments := annotated }
    let event : Event := { id := m.id, message := "ocr_completed"
                           data := { metadata := message } }
    some
      [ .cacheSet ("ocr:status:" ++ event.id) event (some 3600)
      , .publishEvent "event.pipeline" event
      , .publishPayload "classification.init" { metadata := message } ]

/-! ## ClassificationService (`classification/classification.service.ts`)

The Gemini call is modelled by its outcome (`EngineResult`): an error,
or a response whose `text` field may be absent.  `JSON.parse` is a
platform primitive; it is modelled as an abstract parse function
`parse : String → Option ClassValue` mapping a string to the
`{ type, confidence }` projection of its JSON value when it is valid
JSON, and to `none` when parsing throws.  The code-fence stripping that
runs before parsing is translated concretely. -/

/-- Outcome of one `generateContent` call. -/
inductive EngineResult where
  | err
  | ok (text : Option String)
deriving DecidableEq, Repr

/-- The `{ type, confidence }` projection of a parsed JSON value, as
the service reads it: either field may be absent from the value. -/
structure ClassValue where
  type : Option String
  confidence : Option ℚ
deriving DecidableEq, Repr

/-- The fallback of the `catch` branch:
`{ type: "unknown", confidence: 0 }`. -/
def classifyFallback : ClassValue := ⟨some "unknown", some 0⟩

/-- Consume the optional `\n?` at the end of a fence match. -/
def dropNl : List Char → List Char
  | '\n' :: r => r
  | l => l

/-- Length bound used for the termination of the fence stripper. -/
theorem dropNl_length_le (l : List Char) : (dropNl l).length ≤ l.length := by
  match l with
  | [] => simp [dropNl]
  | c :: r =>
    by_cases hc : c = '\n'
    · subst hc; simp [dropNl]
    · have : dropNl (c :: r) = c :: r := by
        unfold dropNl
        split
        · rename_i heq
          cases heq
          exact absurd rfl hc
        · rfl
      simp [this]

/-- Length bound used for the termination of the fence stripper. -/
theorem dropWhile_length_le (p : Char → Bool) (l : List Char) :
    (l.dropWhile p).length ≤ l.length := by
  induction l with
  | nil => simp
  | cons c r ih =>
    rw [List.dropWhile_cons]
    split
    · exact Nat.le_succ_of_le ih
    · simp

/-- The backtick character (code point 96), the building block of a
code fence. -/
def btick : Char := Char.ofNat 96

/-- Length bound used for the termination of the fence stripper. -/
theorem drop_length_le (n : Nat) (l : List Char) :
    (l.drop n).length ≤ l.length := by
  simp [List.length_drop]

/-- Character-level core of the global regex replace
`output.replace(/```[a-z]*\n?/gi, "")`: each occurrence of three
backticks followed by a (possibly empty) run of ASCII letters and an
optional newline is deleted; scanning resumes after the match. -/
def stripFencesChars : List Char → List Char
  | [] => []
  | c :: rest =>
    if c == btick && charsStartWith [btick, btick] rest then
      stripFencesChars (dropNl ((rest.drop 2).dropWhile (fun x => x.isAlpha)))
    else c :: stripFencesChars rest
  termination_by l => l.length
  decreasing_by
    · have h1 := dropWhile_length_le (fun x => x.isAlpha) (rest.drop 2)
      have h2 := dropNl_length_le ((rest.drop 2).dropWhile (fun x => x.isAlpha))
      have h3 := drop_length_le 2 rest
      simp only [List.length_cons]
      omega
    · simp only [List.length_cons]
      omega

/-- The trailing replace `output.replace(/```$/, "")`: delete a final
run of three backticks (after the global replace this never fires, but
it is part of the source). -/
def stripEndFence (l : List Char) : List Char :=
  if charsStartWith [btick, btick, btick] l.reverse then
    (l.reverse.drop 3).reverse
  else l

/-- The response post-processing in `classify` before `JSON.parse`:

```ts
let output = response.text || "unknown";
output = output.trim();
if (output.startsWith("```")) {
  output = output.replace(/```[a-z]*\n?/gi, "").replace(/```$/, "").trim();
}
```

`response.text || "unknown"` also replaces an empty string (falsy). -/
def classifyPreprocess (t : Option String) : String :=
  let output := match t with
    | none => "unknown"
    | some s => if s == "" then "unknown" else s
  let output := strTrim output
  if strStartsWith output "```" then
    strTrim ⟨stripEndFence (stripFencesChars output.toList)⟩
  else output

/-- Translation of `ClassificationService.classify(text)`, over the
outcome of the engine call for that text and an abstract `JSON.parse`.
Every failure — engine error, or `JSON.parse` throwing on the
post-processed output — lands in the `catch` and yields the fallback. -/
def classify (parse : String → Option ClassValue)
    (resp : EngineResult) : ClassValue :=
  match resp with
  | .err => classifyFallback
  | .ok t =>
    match parse (classifyPreprocess t) with
    | none => classifyFallback
    | some v => v

/-- Per-attachment body of the `Promise.all` in `processClassification`,
mutating the shared `file` object:

```ts
const classified = await this.classify(file.text || "");
file.classification = classified.type;
file.confidence = classified.confidence;
```

`file.text || ""` also maps an absent or empty text to `""`.  The
environment maps that string to the engine outcome for it.  No path
throws: `classify` absorbs every failure. -/
def classifyAnnotate (parse : String → Option ClassValue)
    (env : String → EngineResult) (file : AttachmentEntry) :
    AttachmentEntry :=
  let classified := classify parse (env (file.text.getD ""))
  { file with classification := classified.type
              confidence := classified.confidence }

/-- Translation of `ClassificationService.processClassification`.  The
published `data` is `message` itself, whose attachment entries were
mutated in place:

```ts
const event = { id: message.metadata.id,
                message: "classification_completed", data: message };
await redis.set(`redis:status:${event.id}`, JSON.stringify(event));
await kafkaService.publishMessage('event.pipeline', event);
```
-/
def processClassification (parse : String → Option ClassValue)
    (env : String → EngineResult) (m : Meta) : List Emission :=
  let message : Meta :=
    { m with attachments := m.attachments.map (classifyAnnotate parse env) }
  let event : Event := { id := m.id, message := "classification_completed"
                         data := { metadata := message } }
  [ .cacheSet ("redis:status:" ++ event.id) event none
  , .publishEvent "event.pipeline" event ]

/-! ## Concrete fixtures for witnesses and counterexamples -/

/-- An inbound image attachment. -/
def sampleAtt : AttachmentEntry :=
  { filename := some "a.png", content_type := "image/png", url := "u1" }

/-- An inbound document event with one attachment. -/
def sampleMeta : Meta :=
  { subject := "hello", sender := "x@y", body := "b", timestamp := 5
    id := "m1", submission_id := "", attachments := [sampleAtt] }

/-- The same inbound event with an empty attachment list. -/
def emptyAttMeta : Meta := { sampleMeta with attachments := [] }

/-- Extraction environment where the second attachment's engine call
hangs forever and the other two return text. -/
def ocrFailEnv : String → CallOutcome := fun u =>
  if u == "u1" then .returns 100 "front text"
  else if u == "u2" then .hangs
  else .returns 200 "back text"

/-- An extraction-stage event with three image attachments. -/
def ocrFailMeta : Meta :=
  { subject := "s", sender := "x", body := "b", timestamp := 0
    id := "m2", submission_id := "sub2"
    attachments :=
      [ { filename := some "a.png", content_type := "image/png", url := "u1" }
      , { filename := some "b.png", content_type := "image/png", url := "u2" }
      , { filename := some "c.png", content_type := "image/png", url := "u3" } ] }

/-- Extraction environment where every engine call promptly succeeds. -/
def ocrOkEnv : String → CallOutcome := fun _ => .returns 10 "ok"

/-- A `JSON.parse` model that fails on every string (as it does on any
non-JSON engine response, e.g. plain prose). -/
def c5Parse : String → Option ClassValue := fun _ => none

/-- A classification engine that replies with non-JSON prose. -/
def c5Engine : String → EngineResult := fun _ => .ok (some "not json")

/-- A well-formed JSON engine response whose confidence is 5. -/
def c9Json : String := "\x7b \"type\": \"invoice\", \"confidence\": 5 \x7d"

/-- The `JSON.parse` model on `c9Json`: a valid JSON object projecting
to type `"invoice"`, confidence `5`. -/
def c9Parse : String → Option ClassValue := fun s =>
  if s == c9Json then some ⟨some "invoice", some 5⟩ else none

/-- A classification engine answering every prompt with `c9Json`. -/
def c9Engine : String → EngineResult := fun _ => .ok (some c9Json)

/-- A classification-stage event with one extracted attachment. -/
def c9Meta : Meta :=
  { subject := "s", sender := "x", body := "b", timestamp := 0
    id := "m9", submission_id := "m9"
    attachments := [{ filename := some "a.png", content_type := "image/png"
                      url := "u1", text := some "invoice text" }] }

/-- A store holding submission `"m9"` linked to an attachment set. -/
def c9Store : Store :=
  { subs := [{ oid := 0, sender := "x", body := "b", timestamp := 0
               id := "m9", attachments := some 1
               status := "ocr_completed" }]
    atts := [{ oid := 1, attachments := [] }]
    nextOid := 2 }

/-- The store after the classification stage runs on `c9Meta` and the
Status Reconciler applies its emitted common-channel envelope. -/
def c9Final : Store :=
  match eventsTo "event.pipeline"
      (processClassification c9Parse c9Engine c9Meta) with
  | [e] => pipelineUpdate e c9Store
  | _ => c9Store

/-! ## Lemmas about the store primitives -/

/-- With no matching element, `replaceFirst` is the identity. -/
theorem replaceFirst_of_find?_none (p : α → Bool) (f : α → α)
    (l : List α) (h : l.find? p = none) : replaceFirst p f l = l := by
  induction l with
  | nil => rfl
  | cons a l ih =>
    by_cases hpa : p a
    · rw [List.find?_cons_of_pos _ hpa] at h
      cases h
    · rw [List.find?_cons_of_neg _ hpa] at h
      simp [replaceFirst, hpa, ih h]

/-- When the transformer preserves the filter, the first match after a
`replaceFirst` is the image of the first match before it. -/
theorem find?_replaceFirst_of_found (p : α → Bool) (f : α → α)
    (l : List α) (d : α) (hp : ∀ a, p (f a) = p a)
    (h : l.find? p = some d) :
    (replaceFirst p f l).find? p = some (f d) := by
  induction l with
  | nil => cases h
  | cons a l ih =>
    by_cases hpa : p a
    · rw [List.find?_cons_of_pos _ hpa] at h
      injection h with h
      subst h
      have hfa : p (f a) = true := by rw [hp]; exact hpa
      have hrw : replaceFirst p f (a :: l) = f a :: l := by
        simp [replaceFirst, hpa]
      rw [hrw, List.find?_cons_of_pos _ hfa]
    · rw [List.find?_cons_of_neg _ hpa] at h
      have hrw : replaceFirst p f (a :: l) = a :: replaceFirst p f l := by
        simp [replaceFirst, hpa]
      rw [hrw, List.find?_cons_of_neg _ hpa]
      exact ih h

/-- `replaceFirst` never changes the number of documents. -/
theorem replaceFirst_length (p : α → Bool) (f : α → α) (l : List α) :
    (replaceFirst p f l).length = l.length := by
  induction l with
  | nil => rfl
  | cons a l ih =>
    by_cases hpa : p a <;> simp [replaceFirst, hpa, ih]

/-- A non-matching element survives a `replaceFirst` untouched. -/
theorem mem_replaceFirst_of_neg (p : α → Bool) (f : α → α)
    (l : List α) (a : α) (ha : a ∈ l) (hpa : p a = false) :
    a ∈ replaceFirst p f l := by
  induction l with
  | nil => cases ha
  | cons b l ih =>
    by_cases hpb : p b
    · rcases List.mem_cons.mp ha with h | h
      · subst h; rw [hpa] at hpb; cases hpb
      · simp [replaceFirst, hpb, h]
    · rcases List.mem_cons.mp ha with h | h
      · simp [replaceFirst, hpb, h]
      · simp [replaceFirst, hpb, ih h]

/-- Finding skips a prefix with no match. -/
theorem find?_append_of_none (p : α → Bool) (l₁ l₂ : List α)
    (h : l₁.find? p = none) : (l₁ ++ l₂).find? p = l₂.find? p := by
  induction l₁ with
  | nil => rfl
  | cons a l ih =>
    by_cases hpa : p a
    · rw [List.find?_cons_of_pos _ hpa] at h
      cases h
    · rw [List.find?_cons_of_neg _ hpa] at h
      simpa [List.find?_cons_of_neg _ hpa] using ih h

/-- Replacing skips a prefix with no match. -/
theorem replaceFirst_append_of_none (p : α → Bool) (f : α → α)
    (l₁ l₂ : List α) (h : l₁.find? p = none) :
    replaceFirst p f (l₁ ++ l₂) = l₁ ++ replaceFirst p f l₂ := by
  induction l₁ with
  | nil => rfl
  | cons a l ih =>
    by_cases hpa : p a
    · rw [List.find?_cons_of_pos _ hpa] at h
      cases h
    · rw [List.find?_cons_of_neg _ hpa] at h
      simp [replaceFirst, hpa, ih h]

/-! ## Claims about the Status Reconciler -/

/-- Applying one envelope to a store whose submission is linked to an
attachment document replaces that document's entries with the
envelope's attachment list. -/
theorem pipelineUpdate_linkedEntries (e : Event) (st : Store)
    (h : (linkedEntries st e.data.metadata.submission_id).isSome) :
    linkedEntries (pipelineUpdate e st) e.data.metadata.submission_id
      = some e.data.metadata.attachments := by
  obtain ⟨d, hfind⟩ :
      ∃ d, submissionFindOne st e.data.metadata.submission_id = some d := by
    cases hfind : submissionFindOne st e.data.metadata.submission_id with
    | none => simp [linkedEntries, hfind] at h
    | some d => exact ⟨d, rfl⟩
  obtain ⟨aoid, hatt⟩ : ∃ aoid, d.attachments = some aoid := by
    cases hatt : d.attachments with
    | none => simp [linkedEntries, hfind, hatt] at h
    | some aoid => exact ⟨aoid, rfl⟩
  obtain ⟨ad, hdoc⟩ :
      ∃ ad, st.atts.find? (fun x => x.oid == aoid) = some ad := by
    cases hdoc : st.atts.find? (fun x => x.oid == aoid) with
    | none => simp [linkedEntries, hfind, hatt, hdoc] at h
    | some ad => exact ⟨ad, rfl⟩
  have hfind1 :
      submissionFindOne
        (submissionUpdateOne st e.data.metadata.submission_id
          (fun x => { x with status := e.message }))
        e.data.metadata.submission_id = some { d with status := e.message } := by
    unfold submissionFindOne submissionUpdateOne
    exact find?_replaceFirst_of_found _ _ _ _ (fun a => rfl) hfind
  have hdoc1 :
      ((attachmentUpdateOne
        (submissionUpdateOne st e.data.metadata.submission_id
          (fun x => { x with status := e.message }))
        aoid e.data.metadata.attachments).atts.find?
          (fun x => x.oid == aoid))
      = some { ad with attachments := e.data.metadata.attachments } := by
    show (replaceFirst (fun x => x.oid == aoid)
        (fun x => { x with attachments := e.data.metadata.attachments })
        st.atts).find? (fun x => x.oid == aoid) = _
    exact find?_replaceFirst_of_found _ _ _ _ (fun a => rfl) hdoc
  simp only [pipelineUpdate, hfind1, hatt, linkedEntries]
  rw [show submissionFindOne
        (attachmentUpdateOne
          (submissionUpdateOne st e.data.metadata.submission_id
            (fun x => { x with status := e.message }))
          aoid e.data.metadata.attachments)
        e.data.metadata.submission_id
      = some { d with status := e.message } from hfind1]
  simp only [Option.some_bind, hatt, hdoc1]
  rfl

/-- C2.  Full-replace semantics of the Status Reconciler's attachment
write: for a submission id with a linked Attachment-set, reconciling an
envelope carrying attachment list `A` and then one carrying list `B`
leaves the stored entries equal to `B` — never a merge of `A` and `B`. -/
theorem reconcile_full_replace (st : Store) (sid : String) (eA eB : Event)
    (hA : eA.data.metadata.submission_id = sid)
    (hB : eB.data.metadata.submission_id = sid)
    (h : (linkedEntries st sid).isSome) :
    linkedEntries (pipelineUpdate eB (pipelineUpdate eA st)) sid
      = some eB.data.metadata.attachments := by
  have h1 : linkedEntries (pipelineUpdate eA st) sid
      = some eA.data.metadata.attachments := by
    have := pipelineUpdate_linkedEntries eA st (by rw [hA]; exact h)
    rwa [hA] at this
  have h2 := pipelineUpdate_linkedEntries eB (pipelineUpdate eA st)
    (by rw [hB, h1]; rfl)
  rwa [hB] at h2

/-- Witness for C2 at a concrete store and two concrete envelopes. -/
theorem reconcile_full_replace_witness :
    linkedEntries
      (pipelineUpdate
        { id := "m1", message := "classification_completed"
          data := { metadata :=
            { subject := "s", sender := "x", body := "b", timestamp := 0
              id := "m1", submission_id := "m1"
              attachments :=
                [{ filename := some "b.pdf", content_type := "application/pdf"
                   url := "u2", text := some "t2" }] } } }
        (pipelineUpdate
          { id := "m1", message := "ocr_completed"
            data := { metadata :=
              { subject := "s", sender := "x", body := "b", timestamp := 0
                id := "m1", submission_id := "m1"
                attachments :=
                  [{ filename := some "a.png", content_type := "image/png"
                     url := "u1", text := some "t1" }] } } }
          { subs := [{ oid := 0, sender := "x", body := "b", timestamp := 0
                       id := "m1", attachments := some 1
                       status := "ingestion done" }]
            atts := [{ oid := 1, attachments := [] }]
            nextOid := 2 }))
      "m1"
      = some [{ filename := some "b.pdf", content_type := "application/pdf"
                url := "u2", text := some "t2" }] := by
  exact reconcile_full_replace
    { subs := [{ oid := 0, sender := "x", body := "b", timestamp := 0
                 id := "m1", attachments := some 1
                 status := "ingestion done" }]
      atts := [{ oid := 1, attachments := [] }]
      nextOid := 2 }
    "m1"
    { id := "m1", message := "ocr_completed"
      data := { metadata :=
        { subject := "s", sender := "x", body := "b", timestamp := 0
          id := "m1", submission_id := "m1"
          attachments :=
            [{ filename := some "a.png", content_type := "image/png"
               url := "u1", text := some "t1" }] } } }
    { id := "m1", message := "classification_completed"
      data := { metadata :=
        { subject := "s", sender := "x", body := "b", timestamp := 0
          id := "m1", submission_id := "m1"
          attachments :=
            [{ filename := some "b.pdf", content_type := "application/pdf"
               url := "u2", text := some "t2" }] } } }
    rfl rfl (by decide)

/-- C4.  Reconciling an envelope whose submission id matches no stored
Submission is a silent no-op: `update` does not throw (it is a total
function on the store), and the store is left exactly as it was — no
Submission and no Attachment-set is created. -/
theorem reconcile_missing_noop (e : Event) (st : Store)
    (h : submissionFindOne st e.data.metadata.submission_id = none) :
    pipelineUpdate e st = st := by
  have hsubs : submissionUpdateOne st e.data.metadata.submission_id
      (fun d => { d with status := e.message }) = st := by
    unfold submissionUpdateOne
    rw [replaceFirst_of_find?_none _ _ _ h]
  simp only [pipelineUpdate, hsubs, h]

/-- Witness for C4: an envelope for id `"ghost"` against a store holding
only id `"m1"` leaves the store untouched. -/
theorem reconcile_missing_noop_witness :
    pipelineUpdate
      { id := "ghost", message := "ocr_completed"
        data := { metadata :=
          { subject := "s", sender := "x", body := "b", timestamp := 0
            id := "ghost", submission_id := "ghost"
            attachments := [{ filename := some "a.png"
                              content_type := "image/png", url := "u1" }] } } }
      { subs := [{ oid := 0, sender := "x", body := "b", timestamp := 0
                   id := "m1", attachments := none
                   status := "ingestion in progress" }]
        atts := [], nextOid := 1 }
      = { subs := [{ oid := 0, sender := "x", body := "b", timestamp := 0
                     id := "m1", attachments := none
                     status := "ingestion in progress" }]
          atts := [], nextOid := 1 } := by
  apply reconcile_missing_noop
  decide

/-- C10.  Reconciling an envelope for a stored Submission whose
attachments reference is null still overwrites that Submission's status
with the envelope's kind, and does nothing else: the attachment
collection, the ObjectId counter, the number of submissions, every
other submission document, and every field of the matched document
other than `status` are unchanged. -/
theorem reconcile_null_attachments (e : Event) (st : Store)
    (d : SubmissionDoc)
    (hfind : submissionFindOne st e.data.metadata.submission_id = some d)
    (hnull : d.attachments = none) :
    pipelineUpdate e st
      = submissionUpdateOne st e.data.metadata.submission_id
          (fun x => { x with status := e.message })
    ∧ (pipelineUpdate e st).atts = st.atts
    ∧ (pipelineUpdate e st).nextOid = st.nextOid
    ∧ (pipelineUpdate e st).subs.length = st.subs.length
    ∧ submissionFindOne (pipelineUpdate e st) e.data.metadata.submission_id
        = some { d with status := e.message }
    ∧ ∀ d' ∈ st.subs, (d'.id == e.data.metadata.submission_id) = false →
        d' ∈ (pipelineUpdate e st).subs := by
  have hfind1 :
      submissionFindOne
        (submissionUpdateOne st e.data.metadata.submission_id
          (fun x => { x with status := e.message }))
        e.data.metadata.submission_id = some { d with status := e.message } := by
    unfold submissionFindOne submissionUpdateOne
    exact find?_replaceFirst_of_found _ _ _ _ (fun a => rfl) hfind
  have heq : pipelineUpdate e st
      = submissionUpdateOne st e.data.metadata.submission_id
          (fun x => { x with status := e.message }) := by
    simp only [pipelineUpdate, hfind1, hnull]
  refine ⟨heq, ?_, ?_, ?_, ?_, ?_⟩
  · rw [heq]; rfl
  · rw [heq]; rfl
  · rw [heq]
    exact replaceFirst_length _ _ _
  · rw [heq]
    exact hfind1
  · intro d' hmem hne
    rw [heq]
    exact mem_replaceFirst_of_neg _ _ _ _ hmem hne

/-- Witness for C10 at a concrete store: a submission ingested with
zero attachments (null reference) gets its status overwritten and
nothing else changes. -/
theorem reconcile_null_attachments_witness :
    pipelineUpdate
      { id := "m1", message := "ingestion_completed"
        data := { metadata :=
          { subject := "s", sender := "x", body := "b", timestamp := 0
            id := "m1", submission_id := "m1", attachments := [] } } }
      { subs := [{ oid := 0, sender := "x", body := "b", timestamp := 0
                   id := "m1", attachments := none
                   status := "ingestion in progress" }]
        atts := [], nextOid := 1 }
      = { subs := [{ oid := 0, sender := "x", body := "b", timestamp := 0
                     id := "m1", attachments := none
                     status := "ingestion_completed" }]
          atts := [], nextOid := 1 } := by
  have h := reconcile_null_attachments
    { id := "m1", message := "ingestion_completed"
      data := { metadata :=
        { subject := "s", sender := "x", body := "b", timestamp := 0
          id := "m1", submission_id := "m1", attachments := [] } } }
    { subs := [{ oid := 0, sender := "x", body := "b", timestamp := 0
                 id := "m1", attachments := none
                 status := "ingestion in progress" }]
      atts := [], nextOid := 1 }
    { oid := 0, sender := "x", body := "b", timestamp := 0
      id := "m1", attachments := none, status := "ingestion in progress" }
    (by decide) rfl
  rw [h.1]
  decide

/-! ## Claims about the Ingestion Stage -/

/-- C1.  Ingestion is NOT idempotent in the submission identifier: the
service calls `submission.create` unconditionally, the schema declares
no unique index on `id`, and there is no pre-check, so re-delivering
the same inbound event (same `id`) creates a second Submission record
and a second Attachment-set record.  This theorem evaluates the
embedded code on the failing input: the same one-attachment event
ingested twice into an empty store yields two Submission documents
with id `"m1"` and two Attachment-set documents. -/
theorem ingestion_not_idempotent :
    (((ingestion 9 sampleMeta (ingestion 9 sampleMeta Store.empty).1).1.subs.filter
        (fun d => d.id == "m1")).length = 2)
    ∧ ((ingestion 9 sampleMeta (ingestion 9 sampleMeta Store.empty).1).1.atts.length
        = 2) := by
  decide

/-- C6 counterexample.  Ingesting an event whose attachment list is
empty leaves the created Submission's status at
`"ingestion in progress"`: the advance to `"ingestion done"` happens
only inside the non-empty-attachments branch, so the claim's empty-list
case is false on the code. -/
theorem ingestion_empty_status_counterexample :
    ((ingestion 9 emptyAttMeta Store.empty).1.subs.map SubmissionDoc.status)
      = ["ingestion in progress"]
    ∧ "ingestion in progress" ≠ "ingestion done" := by
  decide

/-- Store component of an ingestion run with an empty attachment list:
only the created Submission is added, still in progress. -/
theorem ingestion_fst_empty (now : Nat) (m : Meta) (st : Store)
    (hemp : m.attachments = []) :
    (ingestion now m st).1 =
      { subs := st.subs ++
          [{ oid := st.nextOid, sender := m.sender, body := m.body
             timestamp := m.timestamp, id := m.id, attachments := none
             status := "ingestion in progress" }]
        atts := st.atts, nextOid := st.nextOid + 1 } := by
  simp [ingestion, submissionCreate, hemp]

/-- Store component of an ingestion run with a non-empty attachment
list: the Submission is created, an Attachment-set document is created,
and the first submission matching the id is linked and advanced. -/
theorem ingestion_fst_nonempty (now : Nat) (m : Meta) (st : Store)
    (hne : m.attachments ≠ []) :
    (ingestion now m st).1 =
      { subs := replaceFirst (fun d => d.id == m.id)
          (fun d : SubmissionDoc =>
            { d with attachments := some (st.nextOid + 1)
                     status := "ingestion done" })
          (st.subs ++
            [{ oid := st.nextOid, sender := m.sender, body := m.body
               timestamp := m.timestamp, id := m.id, attachments := none
               status := "ingestion in progress" }])
        atts := st.atts ++
          [{ oid := st.nextOid + 1, attachments := m.attachments }]
        nextOid := st.nextOid + 2 } := by
  have hlen : (m.attachments.length != 0) = true := by
    rw [bne_iff_ne]
    intro h0
    exact hne (List.length_eq_zero.mp h0)
  simp [ingestion, submissionCreate, attachmentCreate, submissionUpdateOne, hlen]

/-- C6 as amended.  Ingestion creates the Submission with status
`"ingestion in progress"`; when the attachment list is non-empty it
creates the Attachment-set, links it, and advances the status to
`"ingestion done"`; when the list is empty it creates no Attachment-set
and the status REMAINS `"ingestion in progress"` at the end of the
operation.  Stated for any store not already holding the id. -/
theorem ingestion_status_amended (now : Nat) (m : Meta) (st : Store)
    (hfresh : submissionFindOne st m.id = none) :
    (m.attachments = [] →
      submissionFindOne (ingestion now m st).1 m.id
        = some { oid := st.nextOid, sender := m.sender, body := m.body
                 timestamp := m.timestamp, id := m.id, attachments := none
                 status := "ingestion in progress" }
      ∧ (ingestion now m st).1.atts = st.atts)
    ∧ (m.attachments ≠ [] →
      submissionFindOne (ingestion now m st).1 m.id
        = some { oid := st.nextOid, sender := m.sender, body := m.body
                 timestamp := m.timestamp, id := m.id
                 attachments := some (st.nextOid + 1)
                 status := "ingestion done" }
      ∧ (ingestion now m st).1.atts
          = st.atts ++ [{ oid := st.nextOid + 1
                          attachments := m.attachments }]) := by
  have hself : (m.id == m.id) = true := by simp
  constructor
  · intro hemp
    rw [ingestion_fst_empty now m st hemp]
    refine ⟨?_, rfl⟩
    simp only [submissionFindOne]
    rw [find?_append_of_none _ _ _ hfresh]
    exact List.find?_cons_of_pos _ hself
  · intro hne
    rw [ingestion_fst_nonempty now m st hne]
    refine ⟨?_, rfl⟩
    simp only [submissionFindOne]
    rw [replaceFirst_append_of_none _ _ _ _ hfresh,
        find?_append_of_none _ _ _ hfresh]
    have hone : replaceFirst (fun d => d.id == m.id)
        (fun d : SubmissionDoc =>
          { d with attachments := some (st.nextOid + 1)
                   status := "ingestion done" })
        [{ oid := st.nextOid, sender := m.sender, body := m.body
           timestamp := m.timestamp, id := m.id, attachments := none
           status := "ingestion in progress" }]
        = [{ oid := st.nextOid, sender := m.sender, body := m.body
             timestamp := m.timestamp, id := m.id
             attachments := some (st.nextOid + 1)
             status := "ingestion done" }] := by
      simp [replaceFirst, hself]
    rw [hone]
    exact List.find?_cons_of_pos _ hself

/-- Witness for the amended C6 at the concrete one-attachment event
against the empty store. -/
theorem ingestion_status_amended_witness :
    submissionFindOne (ingestion 9 sampleMeta Store.empty).1 sampleMeta.id
      = some { oid := 0, sender := "x@y", body := "b", timestamp := 5
               id := "m1", attachments := some 1, status := "ingestion done" }
    ∧ (ingestion 9 sampleMeta Store.empty).1.atts
      = [{ oid := 1, attachments := [sampleAtt] }] := by
  exact (ingestion_status_amended 9 sampleMeta Store.empty (by decide)).2
    (by decide)

/-! ## Claims about the Extraction Stage -/

/-- C3.  Evaluation at the failing input (three image attachments, the
second one's extraction call hangs past the 60-second budget): the
stage still completes, emits exactly one common-channel envelope and
one classification-stage message, and the other two attachments are
populated — but the failed attachment's `text` in the published payload
is ABSENT (`none`), not the empty string.  The `''` fallback the
`catch` produces is only written to the `results`/`parsedData` array,
which the published messages do not use (the payload built from it is
commented out); the claim's "text is set to the empty string" is false
of every observable output. -/
theorem extraction_failure_text_not_emitted :
    ((ocrAnnotateAll ocrFailEnv ocrFailMeta.attachments).map
        (fun l => l.map AttachmentEntry.text))
      = some [some "front text", none, some "back text"]
    ∧ ((ocrParsedData ocrFailEnv ocrFailMeta.attachments).map
        (fun l => l.map AttachmentEntry.text))
      = some [some "front text", some "", some "back text"]
    ∧ ((processOcr ocrFailEnv ocrFailMeta).map
        (fun ems => ((eventsTo "event.pipeline" ems).map Event.message)))
      = some ["ocr_completed"]
    ∧ ((processOcr ocrFailEnv ocrFailMeta).map
        (fun ems => (payloadsTo "classification.init" ems).map
          (fun p => p.metadata.attachments.map AttachmentEntry.text)))
      = some [[some "front text", none, some "back text"]] := by
  decide

/-- Completing the per-attachment fan-in pins the output list's length
and relates each output entry to its input entry. -/
theorem ocrAnnotateAll_spec (env : String → CallOutcome)
    (l l' : List AttachmentEntry) (h : ocrAnnotateAll env l = some l') :
    l'.length = l.length
    ∧ List.Forall₂ (fun a a' => ocrAttachment env a = some a') l l' := by
  induction l generalizing l' with
  | nil =>
    cases h
    exact ⟨rfl, List.Forall₂.nil⟩
  | cons a t ih =>
    unfold ocrAnnotateAll at h
    cases ha : ocrAttachment env a with
    | none => rw [ha] at h; cases h
    | some a' =>
      rw [ha] at h
      cases ht : ocrAnnotateAll env t with
      | none => rw [ht] at h; cases h
      | some t' =>
        rw [ht] at h
        injection h with h
        subst h
        obtain ⟨hlen, hall⟩ := ih t' ht
        exact ⟨by simp [hlen], List.Forall₂.cons ha hall⟩

/-- C7.  When a submission's extraction completes, the stage emits
exactly one envelope to the common channel `event.pipeline`, carrying
the extraction-stage completion marker (`"ocr_completed"` in the code;
the spec's status state machine names this marker
`extraction_completed`), plus exactly one message to the
classification-stage topic `classification.init` carrying the full
attachment list (same length, one output entry per input entry, each
annotated by its extraction outcome; a successful image extraction
annotates `text` with the engine's result). -/
theorem extraction_completion_emissions (env : String → CallOutcome)
    (m : Meta) (l : List AttachmentEntry)
    (h : ocrAnnotateAll env m.attachments = some l) :
    processOcr env m = some
      [ .cacheSet ("ocr:status:" ++ m.id)
          ⟨m.id, "ocr_completed", ⟨{ m with attachments := l }⟩⟩ (some 3600)
      , .publishEvent "event.pipeline"
          ⟨m.id, "ocr_completed", ⟨{ m with attachments := l }⟩⟩
      , .publishPayload "classification.init" ⟨{ m with attachments := l }⟩ ]
    ∧ eventsTo "event.pipeline" ((processOcr env m).getD [])
        = [⟨m.id, "ocr_completed", ⟨{ m with attachments := l }⟩⟩]
    ∧ payloadsTo "classification.init" ((processOcr env m).getD [])
        = [⟨{ m with attachments := l }⟩]
    ∧ l.length = m.attachments.length
    ∧ List.Forall₂ (fun a a' => ocrAttachment env a = some a') m.attachments l
    ∧ (∀ a v, strIncludes a.content_type "image" = true →
        extractTextFromImage (env a.url) = Except.ok v →
        ocrAttachment env a = some { a with text := some v }) := by
  have hrun : processOcr env m = some
      [ .cacheSet ("ocr:status:" ++ m.id)
          ⟨m.id, "ocr_completed", ⟨{ m with attachments := l }⟩⟩ (some 3600)
      , .publishEvent "event.pipeline"
          ⟨m.id, "ocr_completed", ⟨{ m with attachments := l }⟩⟩
      , .publishPayload "classification.init" ⟨{ m with attachments := l }⟩ ] := by
    simp only [processOcr, h]
  obtain ⟨hlen, hall⟩ := ocrAnnotateAll_spec env m.attachments l h
  refine ⟨hrun, ?_, ?_, hlen, hall, ?_⟩
  · rw [hrun]; rfl
  · rw [hrun]; rfl
  · intro a v himg hok
    simp [ocrAttachment, himg, hok]

/-- Witness for C7: a one-image-attachment event whose extraction
succeeds with text `"ok"`. -/
theorem extraction_completion_emissions_witness :
    processOcr ocrOkEnv sampleMeta = some
      [ .cacheSet ("ocr:status:" ++ sampleMeta.id)
          ⟨sampleMeta.id, "ocr_completed",
            ⟨{ sampleMeta with
                attachments := [{ sampleAtt with text := some "ok" }] }⟩⟩
          (some 3600)
      , .publishEvent "event.pipeline"
          ⟨sampleMeta.id, "ocr_completed",
            ⟨{ sampleMeta with
                attachments := [{ sampleAtt with text := some "ok" }] }⟩⟩
      , .publishPayload "classification.init"
          ⟨{ sampleMeta with
              attachments := [{ sampleAtt with text := some "ok" }] }⟩ ]
    ∧ eventsTo "event.pipeline" ((processOcr ocrOkEnv sampleMeta).getD [])
        = [⟨sampleMeta.id, "ocr_completed",
            ⟨{ sampleMeta with
                attachments := [{ sampleAtt with text := some "ok" }] }⟩⟩]
    ∧ payloadsTo "classification.init"
        ((processOcr ocrOkEnv sampleMeta).getD [])
        = [⟨{ sampleMeta with
              attachments := [{ sampleAtt with text := some "ok" }] }⟩]
    ∧ ([{ sampleAtt with text := some "ok" }] : List AttachmentEntry).length
        = sampleMeta.attachments.length
    ∧ List.Forall₂ (fun a a' => ocrAttachment ocrOkEnv a = some a')
        sampleMeta.attachments [{ sampleAtt with text := some "ok" }]
    ∧ (∀ a v, strIncludes a.content_type "image" = true →
        extractTextFromImage (ocrOkEnv a.url) = Except.ok v →
        ocrAttachment ocrOkEnv a = some { a with text := some v }) := by
  exact extraction_completion_emissions ocrOkEnv sampleMeta
    [{ sampleAtt with text := some "ok" }] (by decide)

/-- C8 counterexample.  A document (PDF) attachment whose extraction
engine never responds: `extractTextFromPdf` carries no timeout race, so
the operation never settles — in particular it does not terminate with
a timeout error, contradicting the claim that image and document
extraction alike are bounded by the 60-second budget. -/
theorem pdf_extraction_no_timeout :
    extractTextFromPdf CallOutcome.hangs = none
    ∧ extractTextFromPdf CallOutcome.hangs ≠ some (Except.error ()) := by
  exact ⟨rfl, by intro hc; cases hc⟩

/-- C8 as amended.  Only the image extraction call is bounded by the
fixed 60-second budget (`submissionTimeout`): a late or absent image
engine response yields a timeout error rather than an indefinite wait,
and a rejection also settles as an error; the PDF extraction call
carries no timeout and never settles when its engine hangs. -/
theorem extraction_timeout_amended :
    (∀ t v, submissionTimeout ≤ t →
        extractTextFromImage (CallOutcome.returns t v) = Except.error ())
    ∧ (∀ t, extractTextFromImage (CallOutcome.throws t) = Except.error ())
    ∧ extractTextFromImage CallOutcome.hangs = Except.error ()
    ∧ extractTextFromPdf CallOutcome.hangs = none := by
  refine ⟨?_, fun t => rfl, rfl, rfl⟩
  intro t v hle
  simp [extractTextFromImage, raceTimeout, Nat.not_lt.mpr hle]

/-- Witness for the amended C8: an image engine response arriving at
exactly the 60-second mark is a timeout error. -/
theorem extraction_timeout_amended_witness :
    extractTextFromImage (CallOutcome.returns 60000 "late") = Except.error () := by
  exact extraction_timeout_amended.1 60000 "late" (by decide)

/-! ## Claims about the Classification Stage -/

/-- C5.  Classification failures are absorbed per attachment: when the
engine call for an attachment's text errs, or its response — after the
code-fence stripping of `classifyPreprocess` — fails to parse as JSON,
`classify` returns the `{ type: "unknown", confidence: 0 }` fallback,
the attachment is annotated with it, and the stage still completes and
emits exactly one `classification_completed` envelope on the common
channel. -/
theorem classification_fallback (parse : String → Option ClassValue)
    (env : String → EngineResult) (m : Meta) (f : AttachmentEntry)
    (h : env (f.text.getD "") = EngineResult.err
       ∨ ∃ t, env (f.text.getD "") = EngineResult.ok t
            ∧ parse (classifyPreprocess t) = none) :
    classify parse (env (f.text.getD "")) = classifyFallback
    ∧ classifyAnnotate parse env f
        = { f with classification := some "unknown", confidence := some 0 }
    ∧ eventsTo "event.pipeline" (processClassification parse env m)
        = [⟨m.id, "classification_completed",
            ⟨{ m with
                attachments := m.attachments.map (classifyAnnotate parse env) }⟩⟩]
    ∧ (f ∈ m.attachments →
        ({ f with classification := some "unknown"
                  confidence := some 0 } : AttachmentEntry)
          ∈ m.attachments.map (classifyAnnotate parse env)) := by
  have hcl : classify parse (env (f.text.getD "")) = classifyFallback := by
    rcases h with h | ⟨t, ht, hp⟩
    · simp [classify, h]
    · simp [classify, ht, hp]
  have hann : classifyAnnotate parse env f
      = { f with classification := some "unknown", confidence := some 0 } := by
    simp [classifyAnnotate, hcl, classifyFallback]
  refine ⟨hcl, hann, rfl, fun hf => ?_⟩
  rw [← hann]
  exact List.mem_map_of_mem _ hf

/-- Witness for C5: the engine answers with non-JSON prose
(`"not json"`), and the one-attachment event still completes with the
fallback annotation. -/
theorem classification_fallback_witness :
    classify c5Parse (c5Engine (sampleAtt.text.getD "")) = classifyFallback
    ∧ classifyAnnotate c5Parse c5Engine sampleAtt
        = { sampleAtt with classification := some "unknown"
                           confidence := some 0 }
    ∧ eventsTo "event.pipeline" (processClassification c5Parse c5Engine sampleMeta)
        = [⟨sampleMeta.id, "classification_completed",
            ⟨{ sampleMeta with
                attachments :=
                  sampleMeta.attachments.map
                    (classifyAnnotate c5Parse c5Engine) }⟩⟩]
    ∧ (sampleAtt ∈ sampleMeta.attachments →
        ({ sampleAtt with classification := some "unknown"
                          confidence := some 0 } : AttachmentEntry)
          ∈ sampleMeta.attachments.map (classifyAnnotate c5Parse c5Engine)) := by
  exact classification_fallback c5Parse c5Engine sampleMeta sampleAtt
    (Or.inr ⟨_, rfl, rfl⟩)

/-- C9 counterexample.  The classification engine replies with the
well-formed JSON object `c9Json` carrying confidence `5`; the service
performs no range validation or clamping, so the value stored on the
attachment entry after the classification stage and reconciliation is
`5`, which is outside `[0, 1]`. -/
theorem confidence_out_of_range :
    ((linkedEntries c9Final "m9").map
        (fun l => l.map AttachmentEntry.confidence))
      = some [some 5]
    ∧ ¬ ((0 : ℚ) ≤ 5 ∧ (5 : ℚ) ≤ 1) := by
  decide

/-- C9 as amended.  The confidence written onto an attachment entry is
either the fallback `0` (which lies in `[0, 1]`) or the engine's parsed
response value passed through verbatim, with no range enforcement: it
lies in `[0, 1]` exactly when the engine's value does. -/
theorem confidence_passthrough (parse : String → Option ClassValue)
    (env : String → EngineResult) (f : AttachmentEntry) :
    (classifyAnnotate parse env f).confidence = some 0
    ∨ ∃ t v, env (f.text.getD "") = EngineResult.ok t
        ∧ parse (classifyPreprocess t) = some v
        ∧ (classifyAnnotate parse env f).confidence = v.confidence := by
  cases henv : env (f.text.getD "") with
  | err =>
    left
    simp [classifyAnnotate, classify, henv, classifyFallback]
  | ok t =>
    cases hp : parse (classifyPreprocess t) with
    | none =>
      left
      simp [classifyAnnotate, classify, henv, hp, classifyFallback]
    | some v =>
      right
      exact ⟨t, v, rfl, hp, by simp [classifyAnnotate, classify, henv, hp]⟩

end DocPipeline
